import Mathlib

set_option linter.unusedVariables false

/-!
Shallow embedding of the `enphase-api` Rust library (src/error.rs,
src/models.rs, src/client/entrez.rs, src/client/envoy.rs).

HTTP transport is modelled by an explicit outcome value: either a
transport-level failure (DNS, connection refused, TLS, timeout — the cases
where `reqwest` returns `Err` and the `?` operator propagates
`EnphaseError::Http`) or a completed response carrying a status code and a
body.  Each client method becomes a pure function from its arguments and
the outcome of its single HTTP exchange to the `Result` the Rust code
returns.  Rust string primitives used by the code (`split_once`, `trim`,
`contains`, `replace`) are embedded as executable functions on
`List Char`; `trim` is modelled on the ASCII fragment (Lean's
`Char.isWhitespace`), which coincides with Rust's Unicode version on all
inputs appearing in this development.  The Unicode case table behind
Rust's `str::to_lowercase` lives in the Rust standard library, outside
the sources embedded here, so the lowercasing step of site-name
normalization is kept as an explicit function parameter — statements
quantified over it hold in particular at the real lowercasing — and is
instantiated with the character-wise ASCII table, which agrees with the
real one exactly on ASCII strings, to evaluate concrete ASCII examples.
-/

namespace EnphaseApi

/-- Error enumeration embedded from `EnphaseError` in src/error.rs.  Each
variant carries the diagnostic string the Rust code attaches (for variants
wrapping foreign error types, the carried string stands for that error's
message). -/
inductive EnphaseError where
  | Http (msg : String)
  | InvalidResponse (msg : String)
  | AuthenticationFailed (msg : String)
  | ConfigurationError (msg : String)
  | IoError (msg : String)
  | JsonError (msg : String)
deriving DecidableEq, Repr

/-- Outcome of one HTTP exchange whose body is read as text: a transport
failure, or a completed response with a status code and a textual body. -/
inductive HttpOutcome where
  | transportError (msg : String)
  | response (status : Nat) (body : String)
deriving DecidableEq, Repr

/-- Does the pattern occur at the head of the character list?  Helper for
the embedding of Rust substring search. -/
def matchesAt : List Char → List Char → Bool
  | [], _ => true
  | _ :: _, [] => false
  | p :: ps, c :: cs => p = c && matchesAt ps cs

/-- Embedding of Rust `str::split_once`: split around the first occurrence
of `pat`, returning the text before it and the text after it, or `none`
when `pat` does not occur. -/
def splitOnce (pat : List Char) : List Char → Option (List Char × List Char)
  | [] => if matchesAt pat [] then some ([], []) else none
  | c :: rest =>
    if matchesAt pat (c :: rest) then
      some ([], (c :: rest).drop pat.length)
    else
      match splitOnce pat rest with
      | some (pre, post) => some (c :: pre, post)
      | none => none

/-- Embedding of Rust `str::contains` for a literal pattern: the pattern
occurs somewhere in the text. -/
def rustContains (pat text : List Char) : Bool :=
  (splitOnce pat text).isSome

/-- Embedding of Rust `str::trim`: drop whitespace from both ends. -/
def rustTrim (s : List Char) : List Char :=
  ((s.dropWhile Char.isWhitespace).reverse.dropWhile Char.isWhitespace).reverse

/-- Embedding of Rust `str::replace(' ', "+")`: replace every space
character by a plus sign (a single-character pattern with a
single-character replacement is exactly a character map). -/
def rustReplaceSpacePlus (s : String) : String :=
  String.mk (s.data.map fun c => if c = ' ' then '+' else c)

/-- The ASCII lowercasing table: character-wise `Char.toLower`, which
lowers exactly the letters A through Z.  Rust's Unicode
`str::to_lowercase` agrees with this function on every string of ASCII
characters (Unicode case mappings alter only code points above 127 and
map ASCII to ASCII); on non-ASCII input the two differ, so this function
is used only where that agreement holds. -/
def asciiToLowercase (s : String) : String :=
  String.mk (s.data.map Char.toLower)

/-- Form data sent by `Entrez::login` (src/client/entrez.rs lines
151-155). -/
def login_form_data (username password : String) : List (String × String) :=
  [("username", username), ("password", password), ("authFlow", "entrezSession")]

/-- Result of `Entrez::login` (src/client/entrez.rs lines 143-161): the
send is awaited with `?`, so a transport failure becomes an
`EnphaseError::Http`; any completed response — whatever its status or
body — yields `Ok(())` (the status is only logged). -/
def login (username password : String) (outcome : HttpOutcome) :
    Except EnphaseError Unit :=
  match outcome with
  | .transportError msg => .error (.Http msg)
  | .response _ _ => .ok ()

/-- Result of `Entrez::login_with_env` (src/client/entrez.rs lines
194-208).  The process environment is modelled by the two optional values
of `ENTREZ_USERNAME` and `ENTREZ_PASSWORD`; `std::env::var` returns `Err`
exactly when the variable is absent, which the code maps to
`ConfigurationError` and propagates with `?` before any request is made.
When both variables are present the code delegates to `login`. -/
def login_with_env (entrez_username entrez_password : Option String)
    (outcome : HttpOutcome) : Except EnphaseError Unit :=
  match entrez_username with
  | none => .error (.ConfigurationError "ENTREZ_USERNAME environment variable not set")
  | some username =>
    match entrez_password with
    | none => .error (.ConfigurationError "ENTREZ_PASSWORD environment variable not set")
    | some password => login username password outcome

/-- The `uncommissioned` form value from src/client/entrez.rs line 270:
`if commissioned { "on" } else { "off" }`. -/
def uncommissioned_field (commissioned : Bool) : String :=
  if commissioned then "on" else "off"

/-- Site-name normalization from src/client/entrez.rs line 264:
`site_name_str.to_lowercase().replace(' ', "+")`, with the lowercasing
step a parameter: `lower` stands for Rust's Unicode `str::to_lowercase`,
whose case table is in the Rust standard library, not in the embedded
sources.  A statement quantified over `lower` holds in particular at the
real lowercasing. -/
def normalize_site_with (lower : String → String) (site_name : String) : String :=
  rustReplaceSpacePlus (lower site_name)

/-- Site-name normalization instantiated with the ASCII lowercasing
table: exact for ASCII site names such as the spec's examples. -/
def normalize_site (site_name : String) : String :=
  normalize_site_with asciiToLowercase site_name

/-- Form data sent by `Entrez::generate_token` (src/client/entrez.rs lines
269-273). -/
def generate_token_form_data (site_name serial_number : String)
    (commissioned : Bool) : List (String × String) :=
  [("uncommissioned", uncommissioned_field commissioned),
   ("Site", normalize_site site_name),
   ("serialNum", serial_number)]

/-- The marker located first during token extraction. -/
def jwt_marker : List Char := "id=\"JWTToken\"".data

/-- The closing tag located last during token extraction. -/
def textarea_close : List Char := "</textarea>".data

/-- Token extraction from the response body of `Entrez::generate_token`
(src/client/entrez.rs lines 283-297): split once on the literal
`id="JWTToken"`, then once on the next `>` character, then once on the
literal closing tag; the text between the last two boundaries is trimmed,
and if non-empty it is the token.  Every other path falls through to the
single `InvalidResponse` error with its fixed message. -/
def extract_token (response_text : String) : Except EnphaseError String :=
  match splitOnce jwt_marker response_text.data with
  | some (_, rest) =>
    match splitOnce ['>'] rest with
    | some (_, start_textarea) =>
      match splitOnce textarea_close start_textarea with
      | some (token_text, _) =>
        if (rustTrim token_text).isEmpty then
          .error (.InvalidResponse "Failed to extract token from response")
        else
          .ok (String.mk (rustTrim token_text))
      | none => .error (.InvalidResponse "Failed to extract token from response")
    | none => .error (.InvalidResponse "Failed to extract token from response")
  | none => .error (.InvalidResponse "Failed to extract token from response")

/-- Result of `Entrez::generate_token` (src/client/entrez.rs lines
250-298) as a function of the HTTP exchange outcome: transport failures
propagate as `Http`; the body of any completed response (the status is
only logged) goes through token extraction. -/
def generate_token (outcome : HttpOutcome) : Except EnphaseError String :=
  match outcome with
  | .transportError msg => .error (.Http msg)
  | .response _ body => extract_token body

/-- Power state enumeration embedded from `PowerState` in src/models.rs. -/
inductive PowerState where
  | On
  | Off
deriving DecidableEq, Repr

/-- Wire value from `PowerState::payload_value` in src/models.rs lines
28-33 (`u8`, here `Nat` since only 0 and 1 occur). -/
def PowerState.payload_value : PowerState → Nat
  | .On => 0
  | .Off => 1

/-- Embedding of `PowerStatusResponse` from src/models.rs lines 21-24. -/
structure PowerStatusResponse where
  power_forced_off : Bool
deriving DecidableEq, Repr

/-- JSON values, used to model the body of the power-status response. -/
inductive Json where
  | null
  | bool (b : Bool)
  | num (n : Int)
  | str (s : String)
  | arr (elems : List Json)
  | obj (fields : List (String × Json))
deriving Repr

/-- Outcome of one HTTP exchange whose body is parsed as JSON: a transport
failure, or a completed response whose body either parses to a JSON value
(`some j`) or is not valid JSON text (`none`). -/
inductive HttpJsonOutcome where
  | transportError (msg : String)
  | response (status : Nat) (body : Option Json)

/-- Scan of an object's fields for `powerForcedOff`, mirroring serde's
derived deserializer: unknown fields are ignored, a duplicate occurrence
of the known field is an error. -/
def findPowerForcedOff : List (String × Json) → Option Json →
    Except String (Option Json)
  | [], acc => .ok acc
  | (key, value) :: rest, acc =>
    if key = "powerForcedOff" then
      match acc with
      | some _ => .error "duplicate field powerForcedOff"
      | none => findPowerForcedOff rest (some value)
    else
      findPowerForcedOff rest acc

/-- Deserialization of `PowerStatusResponse` from a JSON value, embedding
the serde derive with `rename_all = "camelCase"` on src/models.rs: the
value must be an object whose `powerForcedOff` field is present exactly
once and is a boolean. -/
def decode_power_status (j : Json) : Except String PowerStatusResponse :=
  match j with
  | .obj fields =>
    match findPowerForcedOff fields none with
    | .error msg => .error msg
    | .ok none => .error "missing field powerForcedOff"
    | .ok (some (.bool b)) => .ok ⟨b⟩
    | .ok (some _) => .error "invalid type for field powerForcedOff"
  | _ => .error "invalid type: expected a map"

/-- Result of `Envoy::authenticate` (src/client/envoy.rs lines 146-176):
transport failures propagate as `Http`; a completed response succeeds
exactly when the status is 200 and the body contains the literal
`"Valid token"`, and otherwise yields `AuthenticationFailed` carrying the
generic message for an empty body or the trimmed body text otherwise. -/
def authenticate (outcome : HttpOutcome) : Except EnphaseError Unit :=
  match outcome with
  | .transportError msg => .error (.Http msg)
  | .response status body =>
    if status = 200 ∧ rustContains "Valid token".data body.data = true then
      .ok ()
    else
      .error (.AuthenticationFailed
        (if body.isEmpty then "Invalid token or authentication failed"
         else "JWT check failed: " ++ String.mk (rustTrim body.data)))

/-- Request body built by `Envoy::set_power_state` (src/client/envoy.rs
line 218): the literal JSON text with the state's wire value spliced in. -/
def set_power_state_payload (state : PowerState) : String :=
  "\x7b\"length\":1,\"arr\":[" ++ toString state.payload_value ++ "]\x7d"

/-- Result of `Envoy::set_power_state` (src/client/envoy.rs lines
211-245): transport failures propagate as `Http`; a completed response
succeeds exactly on status 204 and otherwise yields `InvalidResponse`
embedding the status (the Rust `Display` of the status additionally
appends its canonical reason phrase after the number; the model keeps the
number, which both renderings contain). -/
def set_power_state (state : PowerState) (outcome : HttpOutcome) :
    Except EnphaseError Unit :=
  match outcome with
  | .transportError msg => .error (.Http msg)
  | .response status _ =>
    if status = 204 then
      .ok ()
    else
      .error (.InvalidResponse ("Failed to set power state: HTTP " ++ toString status))

/-- Result of `Envoy::get_power_state` (src/client/envoy.rs lines
279-303): transport failures propagate as `Http`; for a completed
response the status is only logged, and the body is parsed with
`serde_json::from_str` — a parse failure (unparsable text or a value not
matching `PowerStatusResponse`) becomes `JsonError`; on success the
`powerForcedOff` boolean is negated. -/
def get_power_state (outcome : HttpJsonOutcome) : Except EnphaseError Bool :=
  match outcome with
  | .transportError msg => .error (.Http msg)
  | .response _ body =>
    match body with
    | none => .error (.JsonError "expected value")
    | some j =>
      match decode_power_status j with
      | .error msg => .error (.JsonError msg)
      | .ok status => .ok (!status.power_forced_off)

/-- For a valid code point, packing and unpacking round-trips. -/
theorem toNat_ofNat_valid (n : Nat) (h : n.isValidChar) :
    (Char.ofNat n).toNat = n := by
  rw [Char.ofNat, dif_pos h]
  rfl

/-- ASCII lowercasing maps no character other than the space onto the
space. -/
theorem toLower_eq_space_iff (c : Char) : c.toLower = ' ' ↔ c = ' ' := by
  have hdef : c.toLower =
      if c.toNat ≥ 65 ∧ c.toNat ≤ 90 then Char.ofNat (c.toNat + 32) else c := rfl
  constructor
  · intro h
    by_cases hc : c.toNat ≥ 65 ∧ c.toNat ≤ 90
    · exfalso
      have hval : c.toLower.toNat = c.toNat + 32 := by
        rw [hdef, if_pos hc]
        exact toNat_ofNat_valid _ (Or.inl (by omega))
      rw [h] at hval
      have hsp : (' ' : Char).toNat = 32 := rfl
      omega
    · rw [hdef, if_neg hc] at h
      exact h
  · intro h
    subst h
    rfl

/-- Lowercasing and then replacing spaces by plus signs is the same as a
single pass over the characters. -/
theorem map_toLower_space_plus (l : List Char) :
    (l.map Char.toLower).map (fun c => if c = ' ' then '+' else c) =
      l.map fun c => if c = ' ' then '+' else c.toLower := by
  induction l with
  | nil => rfl
  | cons c cs ih =>
    simp only [List.map_cons, ih]
    congr 1
    by_cases hc : c = ' '
    · subst hc
      rfl
    · have hl : ¬ c.toLower = ' ' := fun h => hc ((toLower_eq_space_iff c).mp h)
      rw [if_neg hl, if_neg hc]

/-- C1 counterexample: at the concrete input `commissioned = true`, the
`uncommissioned` form value computed by `generate_token` is `"on"`, not
`"off"` as the claim states. -/
theorem c1_counterexample :
    uncommissioned_field true = "on" ∧ uncommissioned_field true ≠ "off" := by
  decide

/-- C1 (amended): for every boolean `commissioned`, the `uncommissioned`
form field sent by `generate_token` equals `"on"` when
`commissioned = true` and `"off"` when `commissioned = false`. -/
theorem c1_uncommissioned_wire_value :
    ∀ (site serial : String) (commissioned : Bool),
      (generate_token_form_data site serial commissioned).lookup "uncommissioned" =
        some (if commissioned then "on" else "off") ∧
      uncommissioned_field true = "on" ∧ uncommissioned_field false = "off" := by
  intro site serial commissioned
  refine ⟨?_, rfl, rfl⟩
  cases commissioned <;> rfl

/-- C2: the wire payload value is 0 for `On` and 1 for `Off`, and
`get_power_state` returns the exact inverse of the device's
`powerForcedOff` field: `false` yields `true` (on) and `true` yields
`false` (off), for every response status. -/
theorem c2_power_wire_encoding :
    PowerState.payload_value .On = 0 ∧ PowerState.payload_value .Off = 1 ∧
    (∀ (status : Nat) (b : Bool),
      get_power_state (.response status (some (.obj [("powerForcedOff", .bool b)]))) =
        .ok (!b)) ∧
    get_power_state (.response 200 (some (.obj [("powerForcedOff", .bool false)]))) =
      .ok true ∧
    get_power_state (.response 200 (some (.obj [("powerForcedOff", .bool true)]))) =
      .ok false := by
  refine ⟨rfl, rfl, ?_, rfl, rfl⟩
  intro status b
  cases b <;> rfl

/-- C6: `login` succeeds on every completed HTTP response, whatever its
status (2xx through 5xx) and body, and returns an error — the
transport-wrapping `Http` kind — exactly on transport-level failures. -/
theorem c6_login_status_blind :
    (∀ (username password : String) (status : Nat) (body : String),
      login username password (.response status body) = .ok ()) ∧
    (∀ (username password msg : String),
      login username password (.transportError msg) = .error (.Http msg)) := by
  exact ⟨fun _ _ _ _ => rfl, fun _ _ _ => rfl⟩

/-- C7: when `ENTREZ_USERNAME` or `ENTREZ_PASSWORD` is unset,
`login_with_env` fails with a `ConfigurationError` whose result does not
depend on the HTTP outcome (no request is consulted); when both are set
it delegates to `login` with their values. -/
theorem c7_login_with_env_config :
    (∀ (password : Option String) (outcome : HttpOutcome),
      login_with_env none password outcome =
        .error (.ConfigurationError "ENTREZ_USERNAME environment variable not set")) ∧
    (∀ (username : String) (outcome : HttpOutcome),
      login_with_env (some username) none outcome =
        .error (.ConfigurationError "ENTREZ_PASSWORD environment variable not set")) ∧
    (∀ (username password : String) (outcome : HttpOutcome),
      login_with_env (some username) (some password) outcome =
        login username password outcome) := by
  exact ⟨fun _ _ => rfl, fun _ _ => rfl, fun _ _ _ => rfl⟩

/-- C10: with both environment variables unset, `login_with_env` reports
the `ENTREZ_USERNAME` configuration error — never the `ENTREZ_PASSWORD`
one — for every HTTP outcome. -/
theorem c10_username_error_first :
    ∀ outcome : HttpOutcome,
      login_with_env none none outcome =
        .error (.ConfigurationError "ENTREZ_USERNAME environment variable not set") ∧
      login_with_env none none outcome ≠
        .error (.ConfigurationError "ENTREZ_PASSWORD environment variable not set") := by
  intro outcome
  refine ⟨rfl, ?_⟩
  intro hcontra
  have h1 : login_with_env none none outcome =
      .error (.ConfigurationError "ENTREZ_USERNAME environment variable not set") := rfl
  rw [h1] at hcontra
  simp only [Except.error.injEq, EnphaseError.ConfigurationError.injEq] at hcontra
  exact absurd hcontra (by decide)

/-- C10 witness: the property of `c10_username_error_first` at the
concrete outcome of a completed 200 response with an empty body. -/
theorem c10_username_error_first_witness :
    login_with_env none none (.response 200 "") =
      .error (.ConfigurationError "ENTREZ_USERNAME environment variable not set") ∧
    login_with_env none none (.response 200 "") ≠
      .error (.ConfigurationError "ENTREZ_PASSWORD environment variable not set") :=
  c10_username_error_first (.response 200 "")

/-- C3: `authenticate` succeeds on a completed response exactly when the
status is 200 and the body contains the literal `"Valid token"`; every
non-success yields an `AuthenticationFailed` error. -/
theorem c3_authenticate_success_iff :
    ∀ (status : Nat) (body : String),
      (authenticate (.response status body) = .ok () ↔
        status = 200 ∧ rustContains "Valid token".data body.data = true) ∧
      (authenticate (.response status body) = .ok () ∨
        ∃ msg, authenticate (.response status body) =
          .error (.AuthenticationFailed msg)) := by
  intro status body
  by_cases h : status = 200 ∧ rustContains "Valid token".data body.data = true
  · have hok : authenticate (.response status body) = .ok () := by
      show (if status = 200 ∧ rustContains "Valid token".data body.data = true
          then _ else _) = _
      rw [if_pos h]
    exact ⟨by rw [hok]; simp [h], Or.inl hok⟩
  · have herr : authenticate (.response status body) =
        .error (.AuthenticationFailed
          (if body.isEmpty then "Invalid token or authentication failed"
           else "JWT check failed: " ++ String.mk (rustTrim body.data))) := by
      show (if status = 200 ∧ rustContains "Valid token".data body.data = true
          then _ else _) = _
      rw [if_neg h]
    constructor
    · rw [herr]
      simp only [iff_false_intro h]
      simp
    · exact Or.inr ⟨_, herr⟩

/-- C4: `set_power_state` succeeds on a completed response exactly on
status 204; any other status — including 200 — yields an
`InvalidResponse` error whose message embeds the decimal status code, and
the request body is the literal JSON text with the state's wire value (0
for On, 1 for Off). -/
theorem c4_set_power_state_contract :
    set_power_state_payload .On = "\x7b\"length\":1,\"arr\":[0]\x7d" ∧
    set_power_state_payload .Off = "\x7b\"length\":1,\"arr\":[1]\x7d" ∧
    (∀ (state : PowerState) (status : Nat) (body : String),
      (set_power_state state (.response status body) = .ok () ↔ status = 204) ∧
      (set_power_state state (.response status body) = .ok () ∨
        set_power_state state (.response status body) =
          .error (.InvalidResponse
            ("Failed to set power state: HTTP " ++ toString status)))) ∧
    set_power_state .On (.response 200 "") =
      .error (.InvalidResponse "Failed to set power state: HTTP 200") := by
  refine ⟨by decide, by decide, ?_, rfl⟩
  intro state status body
  by_cases h : status = 204
  · have hok : set_power_state state (.response status body) = .ok () := by
      show (if status = 204 then _ else _) = _
      rw [if_pos h]
    exact ⟨by rw [hok]; simp [h], Or.inl hok⟩
  · have herr : set_power_state state (.response status body) =
        .error (.InvalidResponse
          ("Failed to set power state: HTTP " ++ toString status)) := by
      show (if status = 204 then _ else _) = _
      rw [if_neg h]
    constructor
    · rw [herr]
      simp only [iff_false_intro h]
      simp
    · exact Or.inr herr

/-- C5: `generate_token` extracts the text between the end of the opening
tag following the first `id="JWTToken"` marker and the next
`</textarea>`, trimmed; on the example body it returns `"abc123"`, and
whenever any boundary is missing or the trimmed text is empty it fails
with the single fixed `InvalidResponse` diagnostic. -/
theorem c5_token_extraction :
    generate_token (.response 200
        "<html><body><textarea id=\"JWTToken\">abc123</textarea></body></html>") =
      .ok "abc123" ∧
    generate_token (.response 200
        "<html><body><p>Error: Invalid request</p></body></html>") =
      .error (.InvalidResponse "Failed to extract token from response") ∧
    generate_token (.response 200 "id=\"JWTToken\" with no tag end") =
      .error (.InvalidResponse "Failed to extract token from response") ∧
    generate_token (.response 200 "id=\"JWTToken\"> with no closing tag") =
      .error (.InvalidResponse "Failed to extract token from response") ∧
    generate_token (.response 200 "id=\"JWTToken\">   </textarea>") =
      .error (.InvalidResponse "Failed to extract token from response") ∧
    (∀ body : String,
      (∃ token, generate_token (.response 200 body) = .ok token) ∨
      generate_token (.response 200 body) =
        .error (.InvalidResponse "Failed to extract token from response")) := by
  refine ⟨rfl, rfl, rfl, rfl, rfl, ?_⟩
  intro body
  show (∃ token, extract_token body = .ok token) ∨ extract_token body = _
  unfold extract_token
  split
  · split
    · split
      · split
        · exact Or.inr rfl
        · exact Or.inl ⟨_, rfl⟩
      · exact Or.inr rfl
    · exact Or.inr rfl
  · exact Or.inr rfl

/-- C8: the `Site` form value is the lowercased site name with every
space replaced by a plus sign and nothing else changed.  For every
lowercasing function — hence in particular for Rust's Unicode
`str::to_lowercase` — the normalization applies it and then performs a
single character-wise pass turning each space into `'+'` and leaving
every other character untouched (so no percent-encoding happens in the
normalization step); on ASCII site names, where the ASCII table is the
real lowercasing, the whole normalization is one character-wise pass,
and the two spec examples evaluate accordingly. -/
theorem c8_site_normalization :
    normalize_site "My Site" = "my+site" ∧
    normalize_site "Test Site" = "test+site" ∧
    (∀ (lower : String → String) (s : String),
      (normalize_site_with lower s).data =
        (lower s).data.map fun c => if c = ' ' then '+' else c) ∧
    (∀ s : String, (∀ c ∈ s.data, c.toNat < 128) →
      (normalize_site s).data =
        s.data.map fun c => if c = ' ' then '+' else c.toLower) := by
  refine ⟨by decide, by decide, fun lower s => rfl, ?_⟩
  intro s hascii
  show ((s.data.map Char.toLower).map fun c => if c = ' ' then '+' else c) = _
  exact map_toLower_space_plus s.data

/-- C8 witness: the ASCII-restricted conjunct of `c8_site_normalization`
applied at the concrete site name `"My Site"`, whose characters are all
ASCII. -/
theorem c8_site_normalization_witness :
    (normalize_site "My Site").data =
      "My Site".data.map (fun c => if c = ' ' then '+' else c.toLower) :=
  c8_site_normalization.2.2.2 "My Site" (by decide)

/-- C9: `get_power_state` never inspects the status of a completed
response; it succeeds exactly when the body is JSON deserializable to
`PowerStatusResponse` (a boolean `powerForcedOff` field), returning its
negation, and every failure on a completed response is of the `JsonError`
kind. -/
theorem c9_get_power_state_status_blind :
    (∀ (sa sb : Nat) (body : Option Json),
      get_power_state (.response sa body) = get_power_state (.response sb body)) ∧
    (∀ (status : Nat) (body : Option Json),
      (∃ b, get_power_state (.response status body) = .ok b) ∨
      (∃ msg, get_power_state (.response status body) =
        .error (.JsonError msg))) ∧
    (∀ (status : Nat) (j : Json) (b : Bool),
      get_power_state (.response status (some j)) = .ok b ↔
        decode_power_status j = .ok ⟨!b⟩) := by
  refine ⟨fun _ _ _ => rfl, ?_, ?_⟩
  · intro status body
    match body with
    | none => exact Or.inr ⟨_, rfl⟩
    | some j =>
      match hd : decode_power_status j with
      | .error msg =>
        refine Or.inr ⟨msg, ?_⟩
        show (match decode_power_status j with
          | .error msg => Except.error (EnphaseError.JsonError msg)
          | .ok status => Except.ok (!status.power_forced_off)) = _
        rw [hd]
      | .ok st =>
        refine Or.inl ⟨!st.power_forced_off, ?_⟩
        show (match decode_power_status j with
          | .error msg => Except.error (EnphaseError.JsonError msg)
          | .ok status => Except.ok (!status.power_forced_off)) = _
        rw [hd]
  · intro status j b
    have hget : get_power_state (.response status (some j)) =
        (match decode_power_status j with
          | .error msg => Except.error (EnphaseError.JsonError msg)
          | .ok status => Except.ok (!status.power_forced_off)) := rfl
    rw [hget]
    match hd : decode_power_status j with
    | .error msg => simp
    | .ok st =>
      simp only [Except.ok.injEq]
      cases st with
      | mk pfo => cases pfo <;> cases b <;> simp

end EnphaseApi
